import Mathlib

/-!
Verification of the rusty_chess front-end client (TypeScript sources).

This file gives a shallow embedding of the three core components of the
client and proves the specified properties about them:

* the Coordinate Model (`src/chess.ts`: `toCoordFromOffset`, `toCoordFromXY`,
  `toXYFromCoord`, `toOffset`),
* the Render-Model Builder (`transformRows`, in its two variants: the
  offset-indexed variant from the unnamed Game component file, and the
  coord-lookup variant from `src/components/Game.tsx`),
* the Selection State Machine (`handleSquareClick` of
  `src/components/Game.tsx`, the `setState` snapshot handler, and the
  `FenInput` apply/undo handlers).

Modelling conventions:

* JavaScript strings are Lean `String`; the square labels that actually flow
  through the component are always two-character strings produced by the
  Coordinate Model, never the empty string, so the JS truthiness test
  `if (selected)` coincides with the `Option` test used here.
* JavaScript numbers are modelled as `Nat` at call sites that only ever pass
  naturals (grid indices 0..7 and offsets), and as `Int` where the code can
  produce negative values (character-code subtraction).  A JS expression that
  evaluates to `NaN` (via `parseInt` of a non-digit) or throws (indexing a
  character of a too-short string) is modelled as `Option.none`.
* The fallible backend (Tauri `invoke`) is an explicit parameter returning
  `Except Unit _`; an `await` whose promise rejects aborts the handler, and
  the embedding records in that case that no state update ran (all React
  `set*` calls in the handler occur only after its awaits succeed).
-/

set_option maxRecDepth 100000

namespace RustyChess

/-- A square label such as "e4" (type `Coord` in `chess.ts`). -/
abbrev Coord := String

/-- Character code of lowercase a (`const A = 97` in `chess.ts`). -/
def A : Nat := 97

/-- JS string indexing `s[i]`: the character at index `i`, or `none` for the
JS `undefined` of an out-of-range index. -/
def jsCharAt (s : String) (i : Nat) : Option Char :=
  s.toList[i]?

/-- JS `parseInt(c, 10)` applied to the single character `c` (or to the
`undefined` produced by out-of-range indexing): the digit value for an ASCII
digit, `none` for the `NaN` result otherwise. -/
def jsParseIntDigit (c : Option Char) : Option Nat :=
  match c with
  | some c => if c.isDigit then some (c.toNat - 48) else none
  | none => none

/-- `toCoordFromOffset` of `chess.ts`: the column character is
`String.fromCharCode(A + Math.floor(offset / 8))` and the row digit is
`offset % 8 + 1`; the result is the template string of both. -/
def toCoordFromOffset (offset : Nat) : Coord :=
  String.mk [Char.ofNat (A + offset / 8)] ++ toString (offset % 8 + 1)

/-- `toCoordFromXY` of `chess.ts`: column character `A + x`, row `y + 1`. -/
def toCoordFromXY (x y : Nat) : Coord :=
  String.mk [Char.ofNat (A + x)] ++ toString (y + 1)

/-- `toXYFromCoord` of `chess.ts`: `[coord[0].charCodeAt(0) - A,
parseInt(coord[1], 10) - 1]`.  `none` models the JS executions that do not
produce a number pair (a thrown TypeError on the empty string, or a `NaN`
component from `parseInt`). -/
def toXYFromCoord (coord : Coord) : Option (Int × Int) :=
  match jsCharAt coord 0, jsParseIntDigit (jsCharAt coord 1) with
  | some c, some d => some ((c.toNat : Int) - 97, (d : Int) - 1)
  | _, _ => none

/-- `toOffset` of `chess.ts`: `column * 8 + row` with
`column = coord[0].charCodeAt(0) - A` and `row = parseInt(coord[1], 10) - 1`.
`none` models a thrown TypeError or a `NaN` result. -/
def toOffset (coord : Coord) : Option Int :=
  match jsCharAt coord 0, jsParseIntDigit (jsCharAt coord 1) with
  | some c, some d => some (((c.toNat : Int) - 97) * 8 + ((d : Int) - 1))
  | _, _ => none

/-- A valid square label: a file letter a..h (character codes 97..104)
followed by a rank digit 1..8 (character codes 49..56), and nothing else. -/
def validLabel (s : String) : Bool :=
  match s.toList with
  | [f, r] => 97 ≤ f.toNat && f.toNat ≤ 104 && 49 ≤ r.toNat && r.toNat ≤ 56
  | _ => false

/-- The 64 square labels in offset order a1, a2, ..., h8. -/
def allLabels : List Coord :=
  (List.range 64).map toCoordFromOffset

/-- The piece values of the string-union `Piece` type of `chess.ts`
("BlackRook" .. "WhitePawn"). -/
inductive PieceU where
  | blackRook | blackKnight | blackBishop | blackQueen | blackKing | blackPawn
  | whiteRook | whiteKnight | whiteBishop | whiteQueen | whiteKing | whitePawn
deriving DecidableEq

/-- A render square of the offset-indexed `transformRows` variant:
`{ coord, piece }` with the piece possibly absent. -/
structure TSquare where
  coord : Coord
  piece : Option PieceU
deriving DecidableEq, Inhabited

/-- A render row of the offset-indexed `transformRows` variant:
`{ row, squares }`. -/
structure TRow where
  row : Nat
  squares : List TSquare
deriving DecidableEq, Inhabited

/-- JS array indexing `pieces[offset]` for a sparse 64-element array and a
JS-number offset: `undefined` (`none`) for a `NaN`, negative, or out-of-range
index, otherwise the (possibly absent) element. -/
def jsIndex (pieces : List (Option PieceU)) (offset : Option Int) : Option PieceU :=
  match offset with
  | some i => if 0 ≤ i then (pieces.getD i.toNat none) else none
  | none => none

/-- Insert an element into a list sorted by strictly descending `key`,
keeping it before the first element whose key is not larger. -/
def insertDescBy (key : α → Nat) (a : α) : List α → List α
  | [] => [a]
  | x :: xs => if key x ≤ key a then a :: x :: xs else x :: insertDescBy key a xs

/-- A stable sort by descending `key`, modelling the JS
`rows.sort((a, b) => b.row - a.row)`; the row keys it is applied to are the
distinct values 0..7, for which every correct sort agrees. -/
def sortDescBy (key : α → Nat) : List α → List α
  | [] => []
  | x :: xs => insertDescBy key x (sortDescBy key xs)

/-- `transformRows` (offset-indexed variant, unnamed Game component file):
for each rank index r = 0..7 build the row of squares c = 0..7, where the
square carries `toCoordFromXY(c, r)` and `pieces[toOffset(coord)]`; finally
sort the rows by descending `row`. -/
def transformRows (pieces : List (Option PieceU)) : List TRow :=
  sortDescBy TRow.row <|
    (List.range 8).map fun r =>
      { row := r
        squares := (List.range 8).map fun c =>
          let coord := toCoordFromXY c r
          { coord := coord, piece := jsIndex pieces (toOffset coord) } }

/-- The `Color` union of the object-piece `chess` module. -/
inductive Color where
  | black | white
deriving DecidableEq, Inhabited

/-- The `PieceType` union of the object-piece `chess` module. -/
inductive PieceType where
  | pawn | rook | knight | bishop | queen | king
deriving DecidableEq

/-- The object `Piece` interface of the `chess` module imported by
`src/components/Game.tsx`: `{ coord, pieceType?, color? }`. -/
structure PieceObj where
  coord : Coord
  pieceType : Option PieceType := none
  color : Option Color := none
deriving DecidableEq, Inhabited

/-- The `Move` interface imported by `src/components/Game.tsx`:
`{ from, to }`.  Both field names are Lean keywords, so they are named
`from'` and `to'` here. -/
structure Move where
  from' : Coord
  to' : Coord
deriving DecidableEq

/-- A render row of the coord-lookup `transformRows` variant of
`src/components/Game.tsx`: `{ row, pieces }` where every cell holds a
`PieceObj` (a bare `{ coord }` object for an empty square). -/
structure RowG where
  row : Nat
  pieces : List PieceObj
deriving DecidableEq, Inhabited

/-- `transformRows` of `src/components/Game.tsx` (coord-lookup variant): the
cell for `toCoordFromXY(c, r)` is `allPieces.find(p => p.coord == coord)`,
or the bare `{ coord }` object when no piece has that coord; rows are sorted
by descending `row`. -/
def transformRowsByCoord (allPieces : List PieceObj) : List RowG :=
  sortDescBy RowG.row <|
    (List.range 8).map fun r =>
      { row := r
        pieces := (List.range 8).map fun c =>
          let coord := toCoordFromXY c r
          match allPieces.find? (fun p => p.coord == coord) with
          | some piece => piece
          | none => { coord := coord } }

/-- The React state of the `Game` component of `src/components/Game.tsx`:
`rows`, `selected`, `moves`, `turn`, `whiteChecked`, `blackChecked`,
`winner`, each a `useState` hook there. -/
structure GameState where
  rows : List RowG
  selected : Option Coord
  moves : List Move
  turn : Color
  whiteChecked : Bool
  blackChecked : Bool
  winner : Option String
deriving DecidableEq, Inhabited

/-- The initial hook values of the `Game` component: empty rows, no
selection, no moves, White to move, no checks, no winner. -/
def initialState : GameState :=
  { rows := [], selected := none, moves := [], turn := Color.white
    whiteChecked := false, blackChecked := false, winner := none }

/-- The backend (Tauri) commands the client issues, as recorded in a call
trace: `exec_move`, `get_available_moves`, `apply_fen`, `undo`. -/
inductive BackendCall where
  | execMove (m : Move)
  | getMoves (c : Coord)
  | applyFen (fen : String)
  | undo
deriving DecidableEq

/-- The `setSelected(null); setMoves([])` pair that every deselecting branch
of the click handler runs. -/
def clearSelection (st : GameState) : GameState :=
  { st with selected := none, moves := [] }

/-- The result of one run of the click handler: the component state after
the run, the backend calls it issued in order, and whether it ran to
completion (`ok = false` when an awaited backend call rejected, aborting the
handler before any state update). -/
structure ClickOutcome where
  state : GameState
  calls : List BackendCall
  ok : Bool
deriving DecidableEq

/-- The shared tail of `handleSquareClick`: fetch
`getAvailableMoves(piece.coord)`; on an empty list clear the selection, on a
non-empty list select the clicked square with the returned moves; on a
rejected promise abort with the state untouched. -/
def candidateFetch (fetch : Coord → Except Unit (List Move))
    (st : GameState) (coord : Coord) : ClickOutcome :=
  match fetch coord with
  | .error _ => { state := st, calls := [.getMoves coord], ok := false }
  | .ok availableMoves =>
    if availableMoves.length == 0 then
      { state := clearSelection st, calls := [.getMoves coord], ok := true }
    else
      { state := { st with selected := some coord, moves := availableMoves }
        calls := [.getMoves coord], ok := true }

/-- `handleSquareClick` of `src/components/Game.tsx`.  With a selection:
clicking the selected coord clears the selection with no backend call;
otherwise, if `moves.find(m => m.to == piece.coord)` hits, execute that move
and clear the selection; otherwise, and always when idle, fall through to
the `getAvailableMoves` tail.  `exec` and `fetch` are the fallible backend;
a rejection aborts the handler before its state updates run. -/
def handleSquareClick (exec : Move → Except Unit Unit)
    (fetch : Coord → Except Unit (List Move))
    (st : GameState) (piece : PieceObj) : ClickOutcome :=
  match st.selected with
  | some origin =>
    if origin == piece.coord then
      { state := clearSelection st, calls := [], ok := true }
    else
      match st.moves.find? (fun m => m.to' == piece.coord) with
      | some move =>
        match exec move with
        | .error _ => { state := st, calls := [.execMove move], ok := false }
        | .ok _ => { state := clearSelection st, calls := [.execMove move], ok := true }
      | none => candidateFetch fetch st piece.coord
  | none => candidateFetch fetch st piece.coord

/-- `handleApplyClick` of the `FenInput` component: it awaits the
`applyFen(fen)` backend command and nothing else.  `FenInput` has no access
to the `Game` component selection state, so that state passes through
unchanged. -/
def handleApplyClick (fen : String) (st : GameState) : GameState × List BackendCall :=
  (st, [BackendCall.applyFen fen])

/-- `handleUndoClick` of the `FenInput` component: it awaits the `undo()`
backend command and nothing else; the `Game` selection state is untouched. -/
def handleUndoClick (st : GameState) : GameState × List BackendCall :=
  (st, [BackendCall.undo])

/-- The payload of the `get_board` command and of the pushed `update` event,
as consumed by `src/components/Game.tsx`. -/
structure BoardPayload where
  pieces : List PieceObj
  turn : Color
  whiteChecked : Bool
  blackChecked : Bool
  winner : Option String
deriving DecidableEq

/-- `setState` of `src/components/Game.tsx`: run for the initial fetch and
for every pushed `update` event; it sets `rows` (through `transformRows`),
`turn`, `whiteChecked`, `blackChecked` and `winner`, and contains no
`setSelected` and no `setMoves`. -/
def setState (payload : BoardPayload) (st : GameState) : GameState :=
  { st with
    rows := transformRowsByCoord payload.pieces
    turn := payload.turn
    whiteChecked := payload.whiteChecked
    blackChecked := payload.blackChecked
    winner := payload.winner }

/-- The selection-consistency invariant: a square is selected exactly when
the candidate move list is non-empty. -/
def selectionInvariant (st : GameState) : Prop :=
  st.selected ≠ none ↔ st.moves ≠ []

instance (st : GameState) : Decidable (selectionInvariant st) := by
  unfold selectionInvariant; infer_instance

/-! ## Helper lemmas -/

theorem char_eq_ofNat (c : Char) (n : Nat) (h : c.toNat = n) : c = Char.ofNat n := by
  subst h; exact (Char.ofNat_toNat c).symm

/-- Every string satisfying `validLabel` is one of the 64 labels produced by
`toCoordFromOffset`. -/
theorem validLabel_mem {s : String} (h : validLabel s = true) : s ∈ allLabels := by
  obtain ⟨cs⟩ := s
  rcases cs with _ | ⟨f, _ | ⟨r, _ | ⟨c, rest⟩⟩⟩
  · exact Bool.noConfusion h
  · exact Bool.noConfusion h
  · have h' : (97 ≤ f.toNat && f.toNat ≤ 104 && 49 ≤ r.toNat && r.toNat ≤ 56) = true := h
    simp only [Bool.and_eq_true, decide_eq_true_eq] at h'
    obtain ⟨⟨⟨h1, h2⟩, h3⟩, h4⟩ := h'
    have hf : f.toNat = 97 ∨ f.toNat = 98 ∨ f.toNat = 99 ∨ f.toNat = 100 ∨
        f.toNat = 101 ∨ f.toNat = 102 ∨ f.toNat = 103 ∨ f.toNat = 104 := by omega
    have hr : r.toNat = 49 ∨ r.toNat = 50 ∨ r.toNat = 51 ∨ r.toNat = 52 ∨
        r.toNat = 53 ∨ r.toNat = 54 ∨ r.toNat = 55 ∨ r.toNat = 56 := by omega
    rcases hf with hf | hf | hf | hf | hf | hf | hf | hf <;>
      rcases hr with hr | hr | hr | hr | hr | hr | hr | hr <;>
      rw [char_eq_ofNat f _ hf, char_eq_ofNat r _ hr] <;> decide
  · exact Bool.noConfusion h

/-! ## Claim theorems -/

/-- C1: the coordinate conversions round-trip.  For every offset 0..63,
`toOffset (toCoordFromOffset o) = o`; for every valid label s,
`toCoordFromOffset (toOffset s) = s`; for every (x, y) in [0,7]x[0,7],
`toXYFromCoord (toCoordFromXY x y) = (x, y)`; and `toCoordFromXY` applied to
`toXYFromCoord s` returns s for every valid label s. -/
theorem c1_coordinate_roundtrips :
    (∀ o : Nat, o < 64 → toOffset (toCoordFromOffset o) = some (o : Int)) ∧
    (∀ s : String, validLabel s = true →
      ∃ o : Nat, o < 64 ∧ toOffset s = some (o : Int) ∧ toCoordFromOffset o = s) ∧
    (∀ x : Nat, x < 8 → ∀ y : Nat, y < 8 →
      toXYFromCoord (toCoordFromXY x y) = some ((x : Int), (y : Int))) ∧
    (∀ s : String, validLabel s = true →
      ∃ x : Nat, x < 8 ∧ ∃ y : Nat, y < 8 ∧
        toXYFromCoord s = some ((x : Int), (y : Int)) ∧ toCoordFromXY x y = s) := by
  refine ⟨by decide, ?_, by decide, ?_⟩
  · have key : ∀ s ∈ allLabels,
        ∃ o : Nat, o < 64 ∧ toOffset s = some (o : Int) ∧ toCoordFromOffset o = s := by
      decide
    exact fun s h => key s (validLabel_mem h)
  · have key : ∀ s ∈ allLabels,
        ∃ x : Nat, x < 8 ∧ ∃ y : Nat, y < 8 ∧
          toXYFromCoord s = some ((x : Int), (y : Int)) ∧ toCoordFromXY x y = s := by
      decide
    exact fun s h => key s (validLabel_mem h)

/-- C1 witness: the round-trips evaluated at offset 28, at the label "e4"
and at the pair (4, 3). -/
theorem c1_coordinate_roundtrips_witness :
    toOffset (toCoordFromOffset 28) = some (28 : Int) ∧
    (∃ o : Nat, o < 64 ∧ toOffset "e4" = some (o : Int) ∧ toCoordFromOffset o = "e4") ∧
    toXYFromCoord (toCoordFromXY 4 3) = some ((4 : Int), (3 : Int)) ∧
    (∃ x : Nat, x < 8 ∧ ∃ y : Nat, y < 8 ∧
      toXYFromCoord "e4" = some ((x : Int), (y : Int)) ∧ toCoordFromXY x y = "e4") :=
  ⟨c1_coordinate_roundtrips.1 28 (by decide),
   c1_coordinate_roundtrips.2.1 "e4" (by decide),
   c1_coordinate_roundtrips.2.2.1 4 (by decide) 3 (by decide),
   c1_coordinate_roundtrips.2.2.2 "e4" (by decide)⟩

/-- C9 counterexample: the claim says the Coordinate Model fails fast
outside its valid domain, but the code performs no validation.  Offset 64 is
outside 0..63, yet `toCoordFromOffset` returns the ordinary value "i1" (not
an error); "i1" is not a valid label, yet `toOffset` returns the ordinary
value 64 and `toXYFromCoord` the ordinary pair (8, 0). -/
theorem c9_fail_fast_counterexample :
    toCoordFromOffset 64 = "i1" ∧ validLabel "i1" = false ∧
    toOffset "i1" = some (64 : Int) ∧ toXYFromCoord "i1" = some ((8 : Int), (0 : Int)) := by
  decide

/-- C9 amended: the Coordinate Model functions perform no domain validation
and do not signal errors for out-of-domain inputs; every offset in 64..207
is mapped by `toCoordFromOffset` to an ordinary two-character string that is
not a valid a1..h8 label, and `toOffset` maps that string back to the same
out-of-range offset.  (Only inputs whose shape breaks the character
arithmetic itself, e.g. a label whose second character is not a digit, yield
a non-number in JS, modelled here as `none`.) -/
theorem c9_no_validation :
    ∀ o : Nat, o < 208 → 64 ≤ o →
      validLabel (toCoordFromOffset o) = false ∧
      toOffset (toCoordFromOffset o) = some (o : Int) := by
  decide

/-- C9 witness: the amended no-validation theorem evaluated at offset 64. -/
theorem c9_no_validation_witness :
    validLabel (toCoordFromOffset 64) = false ∧
    toOffset (toCoordFromOffset 64) = some (64 : Int) :=
  c9_no_validation 64 (by decide) (by decide)

/-- C4: from Selected(origin, candidates), clicking the origin square itself
transitions the machine to Idle, discarding the candidates, and issues no
backend call at all (the call trace is empty). -/
theorem c4_deselect_by_reclick (exec : Move → Except Unit Unit)
    (fetch : Coord → Except Unit (List Move)) (st : GameState) (piece : PieceObj)
    (origin : Coord) (hsel : st.selected = some origin) (hclick : piece.coord = origin) :
    handleSquareClick exec fetch st piece =
      { state := clearSelection st, calls := [], ok := true } := by
  simp [handleSquareClick, hsel, hclick]

/-- C4 witness: deselect-by-reclick evaluated at Selected("e2", [e2 to e4])
with a click on "e2". -/
theorem c4_deselect_by_reclick_witness :
    handleSquareClick (fun _ => .ok ()) (fun _ => .ok [])
        { initialState with selected := some "e2", moves := [⟨"e2", "e4"⟩] }
        { coord := "e2" } =
      { state := clearSelection
            { initialState with selected := some "e2", moves := [⟨"e2", "e4"⟩] },
        calls := [], ok := true } :=
  c4_deselect_by_reclick (fun _ => .ok ()) (fun _ => .ok [])
    { initialState with selected := some "e2", moves := [⟨"e2", "e4"⟩] }
    { coord := "e2" } "e2" rfl rfl

/-- C3 counterexample: the claim as stated fails on the degenerate state
whose candidate list contains a move whose destination is the origin itself.
From Selected("e2", [e2 to e2]), clicking "e2" matches "a square D for which
some candidate move has destination D", so the claim demands exactly one
move-execution call; the handler instead takes the deselect-by-reclick
branch first and issues no backend call at all. -/
theorem c3_counterexample :
    ((⟨"e2", "e2"⟩ : Move) ∈
        ({ initialState with selected := some "e2", moves := [⟨"e2", "e2"⟩] } : GameState).moves ∧
      (⟨"e2", "e2"⟩ : Move).to' = "e2") ∧
    (handleSquareClick (fun _ => .ok ()) (fun _ => .ok [])
        { initialState with selected := some "e2", moves := [⟨"e2", "e2"⟩] }
        { coord := "e2" }).calls = [] := by
  decide

/-- C3 (amended): from Selected(origin, candidates), clicking a square D
distinct from the origin for which some candidate move has destination D
issues exactly one backend call, namely the move-execution call on the first
candidate whose destination is D, and transitions the machine to Idle.
(Amendment forced by the counterexample: the deselect-by-reclick branch of
the handler takes priority, so D = origin must be excluded.) -/
theorem c3_execute_candidate (exec : Move → Except Unit Unit)
    (fetch : Coord → Except Unit (List Move)) (st : GameState) (piece : PieceObj)
    (origin : Coord) (hsel : st.selected = some origin) (hne : piece.coord ≠ origin)
    (m : Move) (hfind : st.moves.find? (fun mv => mv.to' == piece.coord) = some m)
    (hok : exec m = .ok ()) :
    m ∈ st.moves ∧ m.to' = piece.coord ∧
    handleSquareClick exec fetch st piece =
      { state := clearSelection st, calls := [.execMove m], ok := true } := by
  refine ⟨List.mem_of_find?_eq_some hfind, by simpa using List.find?_some hfind, ?_⟩
  have hbe : (origin == piece.coord) = false :=
    beq_eq_false_iff_ne.mpr fun h => hne h.symm
  simp [handleSquareClick, hsel, hbe, hfind, hok]

/-- C3 witness: executing the candidate move e2 to e4 from
Selected("e2", [e2 to e4]) by clicking "e4". -/
theorem c3_execute_candidate_witness :
    (⟨"e2", "e4"⟩ : Move) ∈
      ({ initialState with selected := some "e2", moves := [⟨"e2", "e4"⟩] } : GameState).moves ∧
    (⟨"e2", "e4"⟩ : Move).to' = ({ coord := "e4" } : PieceObj).coord ∧
    handleSquareClick (fun _ => .ok ()) (fun _ => .ok [])
        { initialState with selected := some "e2", moves := [⟨"e2", "e4"⟩] }
        { coord := "e4" } =
      { state := clearSelection
          { initialState with selected := some "e2", moves := [⟨"e2", "e4"⟩] },
        calls := [.execMove ⟨"e2", "e4"⟩], ok := true } :=
  c3_execute_candidate (fun _ => .ok ()) (fun _ => .ok [])
    { initialState with selected := some "e2", moves := [⟨"e2", "e4"⟩] }
    { coord := "e4" } "e2" rfl (by decide) ⟨"e2", "e4"⟩ rfl rfl

/-- C5: whenever a click triggers a candidate-move request — from Idle on
any square, or from Selected on a square that is neither the origin nor a
candidate destination — the only backend call issued is the candidate-move
fetch (in particular no move-execution call); on an empty response the
machine ends Idle, and on a non-empty response it ends
Selected(clicked square, returned moves), abandoning the previous
selection. -/
theorem c5_new_selection_fetch (exec : Move → Except Unit Unit)
    (fetch : Coord → Except Unit (List Move)) (st : GameState) (piece : PieceObj)
    (h : st.selected = none ∨
      ∃ origin, st.selected = some origin ∧ piece.coord ≠ origin ∧
        ∀ m ∈ st.moves, m.to' ≠ piece.coord) :
    (handleSquareClick exec fetch st piece).calls = [.getMoves piece.coord] ∧
    ∀ ms, fetch piece.coord = .ok ms →
      (ms = [] →
        (handleSquareClick exec fetch st piece).state = clearSelection st) ∧
      (ms ≠ [] →
        (handleSquareClick exec fetch st piece).state =
          { st with selected := some piece.coord, moves := ms }) := by
  have hred : handleSquareClick exec fetch st piece = candidateFetch fetch st piece.coord := by
    rcases h with hidle | ⟨origin, hsel, hne, hnc⟩
    · simp [handleSquareClick, hidle]
    · have hbe : (origin == piece.coord) = false :=
        beq_eq_false_iff_ne.mpr fun h => hne h.symm
      have hfind : st.moves.find? (fun mv => mv.to' == piece.coord) = none := by
        rw [List.find?_eq_none]
        intro m hm
        simpa using hnc m hm
      simp [handleSquareClick, hsel, hbe, hfind]
  rw [hred]
  refine ⟨?_, ?_⟩
  · cases hf : fetch piece.coord with
    | error e => simp [candidateFetch, hf]
    | ok ms =>
      by_cases hl : ms.length = 0 <;> simp [candidateFetch, hf, hl]
  · intro ms hms
    refine ⟨fun he => ?_, fun hne' => ?_⟩
    · subst he; simp [candidateFetch, hms]
    · have hl : ¬ ms.length = 0 := by
        cases ms with
        | nil => exact absurd rfl hne'
        | cons a l => simp
      simp [candidateFetch, hms, hl]

/-- C5 witness: from Selected("e2", [e2 to e4]), clicking "d7" (neither the
origin nor a candidate destination) issues only the candidate fetch for
"d7" and, the backend returning the non-empty list [d7 to d5], ends
Selected("d7", [d7 to d5]). -/
theorem c5_new_selection_fetch_witness :
    (handleSquareClick (fun _ => .ok ()) (fun _ => .ok [⟨"d7", "d5"⟩])
        { initialState with selected := some "e2", moves := [⟨"e2", "e4"⟩] }
        { coord := "d7" }).calls = [.getMoves "d7"] ∧
    (handleSquareClick (fun _ => .ok ()) (fun _ => .ok [⟨"d7", "d5"⟩])
        { initialState with selected := some "e2", moves := [⟨"e2", "e4"⟩] }
        { coord := "d7" }).state =
      { { initialState with selected := some "e2", moves := [⟨"e2", "e4"⟩] } with
          selected := some "d7", moves := [⟨"d7", "d5"⟩] } := by
  have h := c5_new_selection_fetch (fun _ => .ok ()) (fun _ => .ok [⟨"d7", "d5"⟩])
    { initialState with selected := some "e2", moves := [⟨"e2", "e4"⟩] }
    { coord := "d7" }
    (Or.inr ⟨"e2", rfl, by decide, by decide⟩)
  exact ⟨h.1, (h.2 [⟨"d7", "d5"⟩] rfl).2 (by simp)⟩

/-- C7: if the backend call made by the click handler fails (`ok = false`,
i.e. the awaited move-execution or candidate-move promise rejected), the
whole component state — selection, candidates, and the rendered rows — is
exactly the pre-call state. -/
theorem c7_failure_preserves_state (exec : Move → Except Unit Unit)
    (fetch : Coord → Except Unit (List Move)) (st : GameState) (piece : PieceObj)
    (h : (handleSquareClick exec fetch st piece).ok = false) :
    (handleSquareClick exec fetch st piece).state = st := by
  have hc : ∀ coord, (candidateFetch fetch st coord).ok = false →
      (candidateFetch fetch st coord).state = st := by
    intro coord hk
    unfold candidateFetch at hk ⊢
    cases hf : fetch coord with
    | error e => rfl
    | ok ms =>
      rw [hf] at hk
      by_cases hl : ms.length = 0
      · simp [hl] at hk
      · have hlb : (ms.length == 0) = false := beq_eq_false_iff_ne.mpr hl
        simp [hlb] at hk
  revert h
  unfold handleSquareClick
  split
  · split
    · intro h
      exact Bool.noConfusion h
    · split
      · rename_i move hfind
        cases hex : exec move with
        | error e => intro h; rfl
        | ok u => intro h; exact Bool.noConfusion h
      · exact hc piece.coord
  · exact hc piece.coord

/-- C7 witness: with a backend whose candidate-move call rejects, a click
from Idle on "e2" fails and leaves the state exactly as it was. -/
theorem c7_failure_preserves_state_witness :
    (handleSquareClick (fun _ => .error ()) (fun _ => .error ())
        initialState { coord := "e2" }).state = initialState :=
  c7_failure_preserves_state (fun _ => .error ()) (fun _ => .error ())
    initialState { coord := "e2" } rfl

/-- C10: the selection/candidates consistency invariant — a square is
selected iff the candidate list is non-empty — holds in the initial state
and is preserved by every complete run of the click handler (including runs
aborted by a backend failure, which leave the state unchanged). -/
theorem c10_selection_invariant_preserved :
    selectionInvariant initialState ∧
    ∀ (exec : Move → Except Unit Unit) (fetch : Coord → Except Unit (List Move))
      (st : GameState) (piece : PieceObj), selectionInvariant st →
        selectionInvariant (handleSquareClick exec fetch st piece).state := by
  refine ⟨by decide, ?_⟩
  intro exec fetch st piece hinv
  have hclear : selectionInvariant (clearSelection st) := by
    simp [selectionInvariant, clearSelection]
  have hc : ∀ coord, selectionInvariant (candidateFetch fetch st coord).state := by
    intro coord
    unfold candidateFetch
    cases hf : fetch coord with
    | error e => exact hinv
    | ok ms =>
      by_cases hl : ms.length = 0
      · simpa [hl] using hclear
      · have hlb : (ms.length == 0) = false := beq_eq_false_iff_ne.mpr hl
        have hms : ms ≠ [] := by
          cases ms with
          | nil => exact absurd rfl hl
          | cons a l => simp
        simp [hlb, selectionInvariant, hms]
  unfold handleSquareClick
  split
  · split
    · exact hclear
    · split
      · rename_i move hfind
        cases hex : exec move with
        | error e => exact hinv
        | ok u => exact hclear
      · exact hc piece.coord
  · exact hc piece.coord

/-- C10 witness: the invariant after a click from the initial state, the
initial-state hypothesis discharged by the first half of the theorem. -/
theorem c10_selection_invariant_preserved_witness :
    selectionInvariant (handleSquareClick (fun _ => .ok ()) (fun _ => .ok [])
      initialState { coord := "e2" }).state :=
  c10_selection_invariant_preserved.2 (fun _ => .ok ()) (fun _ => .ok [])
    initialState { coord := "e2" } c10_selection_invariant_preserved.1

/-- C6 counterexample: the claim says every applyFen/undo invocation results
in Selection State Idle, but the FenInput handlers never touch the Game
component selection state.  From Selected("e2", [e2 to e4]), after the
apply-FEN handler the square is still selected, and after the undo handler
the candidate list is still non-empty. -/
theorem c6_counterexample :
    ((handleApplyClick "8/8/8/8/8/8/8/8 w - - 0 1"
        { initialState with selected := some "e2", moves := [⟨"e2", "e4"⟩] }).1.selected
      = some "e2") ∧
    ((handleUndoClick
        { initialState with selected := some "e2", moves := [⟨"e2", "e4"⟩] }).1.moves
      = [⟨"e2", "e4"⟩]) :=
  ⟨rfl, rfl⟩

/-- C6 (amended): the FenInput apply and undo handlers issue exactly their
backend command and leave the entire component state — in particular the
selected square and the candidate list — unchanged; no reset to Idle
happens. -/
theorem c6_fen_undo_leave_selection :
    ∀ (fen : String) (st : GameState),
      handleApplyClick fen st = (st, [BackendCall.applyFen fen]) ∧
      handleUndoClick st = (st, [BackendCall.undo]) :=
  fun _ _ => ⟨rfl, rfl⟩

/-- C8: receiving a pushed board snapshot replaces the rendered rows, the
side to move, both check flags and the winner field from the payload, and
leaves the selection state (selected square and candidate list) untouched. -/
theorem c8_snapshot_replaces_board_keeps_selection :
    ∀ (payload : BoardPayload) (st : GameState),
      (setState payload st).rows = transformRowsByCoord payload.pieces ∧
      (setState payload st).turn = payload.turn ∧
      (setState payload st).whiteChecked = payload.whiteChecked ∧
      (setState payload st).blackChecked = payload.blackChecked ∧
      (setState payload st).winner = payload.winner ∧
      (setState payload st).selected = st.selected ∧
      (setState payload st).moves = st.moves :=
  fun _ _ => ⟨rfl, rfl, rfl, rfl, rfl, rfl, rfl⟩

/-- The label list written out: file-major offset order a1..a8, b1..b8, ...,
h8. -/
theorem allLabels_eq :
    allLabels =
    ["a1", "a2", "a3", "a4", "a5", "a6", "a7", "a8",
     "b1", "b2", "b3", "b4", "b5", "b6", "b7", "b8",
     "c1", "c2", "c3", "c4", "c5", "c6", "c7", "c8",
     "d1", "d2", "d3", "d4", "d5", "d6", "d7", "d8",
     "e1", "e2", "e3", "e4", "e5", "e6", "e7", "e8",
     "f1", "f2", "f3", "f4", "f5", "f6", "f7", "f8",
     "g1", "g2", "g3", "g4", "g5", "g6", "g7", "g8",
     "h1", "h2", "h3", "h4", "h5", "h6", "h7", "h8"] := rfl

/-- The fully evaluated form of the offset-indexed transformRows: the eight
rows in descending row order, each square holding its label and the snapshot
element at offset file * 8 + rank (both indices 0-based). -/
theorem transformRows_nf (pieces : List (Option PieceU)) :
    transformRows pieces =
    [⟨7, [⟨"a8", pieces.getD 7 none⟩, ⟨"b8", pieces.getD 15 none⟩,
        ⟨"c8", pieces.getD 23 none⟩, ⟨"d8", pieces.getD 31 none⟩,
        ⟨"e8", pieces.getD 39 none⟩, ⟨"f8", pieces.getD 47 none⟩,
        ⟨"g8", pieces.getD 55 none⟩, ⟨"h8", pieces.getD 63 none⟩]⟩,
     ⟨6, [⟨"a7", pieces.getD 6 none⟩, ⟨"b7", pieces.getD 14 none⟩,
        ⟨"c7", pieces.getD 22 none⟩, ⟨"d7", pieces.getD 30 none⟩,
        ⟨"e7", pieces.getD 38 none⟩, ⟨"f7", pieces.getD 46 none⟩,
        ⟨"g7", pieces.getD 54 none⟩, ⟨"h7", pieces.getD 62 none⟩]⟩,
     ⟨5, [⟨"a6", pieces.getD 5 none⟩, ⟨"b6", pieces.getD 13 none⟩,
        ⟨"c6", pieces.getD 21 none⟩, ⟨"d6", pieces.getD 29 none⟩,
        ⟨"e6", pieces.getD 37 none⟩, ⟨"f6", pieces.getD 45 none⟩,
        ⟨"g6", pieces.getD 53 none⟩, ⟨"h6", pieces.getD 61 none⟩]⟩,
     ⟨4, [⟨"a5", pieces.getD 4 none⟩, ⟨"b5", pieces.getD 12 none⟩,
        ⟨"c5", pieces.getD 20 none⟩, ⟨"d5", pieces.getD 28 none⟩,
        ⟨"e5", pieces.getD 36 none⟩, ⟨"f5", pieces.getD 44 none⟩,
        ⟨"g5", pieces.getD 52 none⟩, ⟨"h5", pieces.getD 60 none⟩]⟩,
     ⟨3, [⟨"a4", pieces.getD 3 none⟩, ⟨"b4", pieces.getD 11 none⟩,
        ⟨"c4", pieces.getD 19 none⟩, ⟨"d4", pieces.getD 27 none⟩,
        ⟨"e4", pieces.getD 35 none⟩, ⟨"f4", pieces.getD 43 none⟩,
        ⟨"g4", pieces.getD 51 none⟩, ⟨"h4", pieces.getD 59 none⟩]⟩,
     ⟨2, [⟨"a3", pieces.getD 2 none⟩, ⟨"b3", pieces.getD 10 none⟩,
        ⟨"c3", pieces.getD 18 none⟩, ⟨"d3", pieces.getD 26 none⟩,
        ⟨"e3", pieces.getD 34 none⟩, ⟨"f3", pieces.getD 42 none⟩,
        ⟨"g3", pieces.getD 50 none⟩, ⟨"h3", pieces.getD 58 none⟩]⟩,
     ⟨1, [⟨"a2", pieces.getD 1 none⟩, ⟨"b2", pieces.getD 9 none⟩,
        ⟨"c2", pieces.getD 17 none⟩, ⟨"d2", pieces.getD 25 none⟩,
        ⟨"e2", pieces.getD 33 none⟩, ⟨"f2", pieces.getD 41 none⟩,
        ⟨"g2", pieces.getD 49 none⟩, ⟨"h2", pieces.getD 57 none⟩]⟩,
     ⟨0, [⟨"a1", pieces.getD 0 none⟩, ⟨"b1", pieces.getD 8 none⟩,
        ⟨"c1", pieces.getD 16 none⟩, ⟨"d1", pieces.getD 24 none⟩,
        ⟨"e1", pieces.getD 32 none⟩, ⟨"f1", pieces.getD 40 none⟩,
        ⟨"g1", pieces.getD 48 none⟩, ⟨"h1", pieces.getD 56 none⟩]⟩] := rfl

set_option maxHeartbeats 1600000 in
/-- C2: for every board snapshot given as a 64-element optional-piece
sequence, the (offset-indexed) transformRows outputs exactly 8 rows of 8
squares each; the row at display position i carries row index 7 - i (rank 8
down to rank 1) and its square at position j carries the label
toCoordFromXY j (7 - i) (file order a..h) together with the snapshot
element at that label's offset as computed by the Coordinate Model; and
across the whole grid each of the 64 valid labels appears on exactly one
square, whose piece is the snapshot element at the label's offset. -/
theorem c2_render_model (pieces : List (Option PieceU)) (_hlen : pieces.length = 64) :
    (transformRows pieces).length = 8 ∧
    (∀ i : Nat, i < 8 →
      ((transformRows pieces).getD i default).row = 7 - i ∧
      ((transformRows pieces).getD i default).squares.length = 8 ∧
      ∀ j : Nat, j < 8 →
        (((transformRows pieces).getD i default).squares.getD j default).coord
          = toCoordFromXY j (7 - i) ∧
        (((transformRows pieces).getD i default).squares.getD j default).piece
          = jsIndex pieces (toOffset (toCoordFromXY j (7 - i)))) ∧
    (∀ s : String, validLabel s = true →
      ((transformRows pieces).map TRow.squares).flatten.countP
          (fun sq => sq.coord == s) = 1 ∧
      ((transformRows pieces).map TRow.squares).flatten.find?
          (fun sq => sq.coord == s) =
        some { coord := s, piece := jsIndex pieces (toOffset s) }) := by
  rw [transformRows_nf]
  refine ⟨rfl, ?_, ?_⟩
  · intro i hi
    interval_cases i <;>
      exact ⟨rfl, rfl, by intro j hj; interval_cases j <;> exact ⟨rfl, rfl⟩⟩
  · intro s hs
    have hmem := validLabel_mem hs
    rw [allLabels_eq] at hmem
    simp only [List.mem_cons, List.not_mem_nil, or_false] at hmem
    rcases hmem with rfl | rfl | rfl | rfl | rfl | rfl | rfl | rfl | rfl | rfl | rfl | rfl | rfl | rfl | rfl | rfl | rfl | rfl | rfl | rfl | rfl | rfl | rfl | rfl | rfl | rfl | rfl | rfl | rfl | rfl | rfl | rfl | rfl | rfl | rfl | rfl | rfl | rfl | rfl | rfl | rfl | rfl | rfl | rfl | rfl | rfl | rfl | rfl | rfl | rfl | rfl | rfl | rfl | rfl | rfl | rfl | rfl | rfl | rfl | rfl | rfl | rfl | rfl | rfl
    all_goals exact ⟨rfl, rfl⟩

/-- C2 witness: the all-empty 64-element snapshot. -/
theorem c2_render_model_witness :
    (transformRows (List.replicate 64 (none : Option PieceU))).length = 8 ∧
    ((transformRows (List.replicate 64 (none : Option PieceU))).getD 0 default).row = 7 ∧
    ((transformRows (List.replicate 64 (none : Option PieceU))).map
        TRow.squares).flatten.countP (fun sq => sq.coord == "e4") = 1 := by
  have h := c2_render_model (List.replicate 64 (none : Option PieceU)) rfl
  exact ⟨h.1, (h.2.1 0 (by decide)).1, (h.2.2 "e4" (by decide)).1⟩

end RustyChess
